import Mathlib

/-!
Verification of the month-calendar widget in src/pages/index.tsx.

The component is embedded shallowly: the pure helpers (pad2, formatYMD,
getParam, the width computation, the cells grid generator) become Lean
functions; the useState component state becomes an explicit HomeState record
with the event handlers as state transformers; JavaScript numbers appear as
Option Rat with none standing for NaN; host built-ins that the component
calls (Date month normalisation, getDay, daysInMonth via day 0 of the next
month, Number, String trim, Intl.DateTimeFormat) are modelled by their
documented semantics, with Intl abstracted as its outcome.
-/

namespace Calendar

/-- Week start convention from the source type WeekStart: 0 = Sunday, 1 = Monday. -/
abbrev WeekStart := Fin 2

/-- Model of pad2 from the source: String(n).padStart(2, "0"). -/
def pad2 (n : Nat) : String :=
  let s := toString n
  String.mk (List.replicate (2 - s.length) '0') ++ s

/-- Leap year of the proleptic Gregorian calendar used by the JavaScript Date object. -/
def isLeapYear (y : Int) : Bool :=
  y % 4 == 0 && (y % 100 != 0 || y % 400 == 0)

/-- Model of daysInMonth computed in the source as new Date(y, m + 1, 0).getDate():
the day count of the 0-based month m in year y. -/
def daysInMonth (y : Int) (m : Fin 12) : Nat :=
  if m.val = 1 then (if isLeapYear y then 29 else 28)
  else if m.val = 3 ∨ m.val = 5 ∨ m.val = 8 ∨ m.val = 10 then 30
  else 31

/-- Model of Date.prototype.getDay on the local date (y, m, d), with 0-based month m:
0 = Sunday .. 6 = Saturday, via the Sakamoto congruence on the proleptic Gregorian
calendar. -/
def getDay (y : Int) (m : Fin 12) (d : Nat) : Nat :=
  let t : List Int := [0, 3, 2, 5, 0, 3, 5, 1, 4, 6, 2, 4]
  let yy : Int := if m.val < 2 then y - 1 else y
  ((yy + yy / 4 - yy / 100 + yy / 400 + t.getD m.val 0 + (d : Int)) % 7).toNat

/-- A grid cell as built by the cells memo in the source: an optional date
(year, 0-based month, day of month), a text label and an in-month flag. -/
structure Cell where
  date : Option (Int × Fin 12 × Nat)
  label : String
  inMonth : Bool
deriving DecidableEq

/-- The blank placeholder cell pushed by the source for leading and trailing slots. -/
def blankCell : Cell := ⟨none, "", false⟩

/-- The cells memo from the source: emit the week-start-adjusted number of leading
blanks, one cell per day of the month, then pad with blanks while the length is
below 42. -/
def cells (y : Int) (m : Fin 12) (weekStart : WeekStart) : List Cell :=
  let dim := daysInMonth y m
  let lead0 := getDay y m 1
  let leading := if weekStart = 1 then (lead0 + 6) % 7 else lead0
  let base := List.replicate leading blankCell
      ++ (List.range dim).map (fun i => ⟨some (y, m, i + 1), toString (i + 1), true⟩)
  base ++ List.replicate (42 - base.length) blankCell

/-- The component state held by the source via useState: view month and selected date. -/
structure HomeState where
  view : Int × Fin 12
  selected : Int × Fin 12 × Nat
deriving DecidableEq

/-- MakeFullYear from the ECMA Date constructor: an integer year argument from 0
to 99 is remapped to 1900 plus the argument, every other year is kept. -/
def makeFullYear (y : Int) : Int :=
  if 0 ≤ y ∧ y ≤ 99 then 1900 + y else y

/-- Month-overflow normalisation of the Date constructor on a (year, month)
argument pair whose year is already a full year: the month overflow is carried
into the year, giving year y + floor(m / 12) and month m modulo 12. -/
def normYM (y m : Int) : Int × Fin 12 :=
  (y + m / 12, ⟨(m % 12).toNat, by omega⟩)

/-- The (year, month) pair carried by new Date(y, m, 1): the year argument runs
through the two-digit remap makeFullYear, then the month overflow is carried. -/
def mkYM (y m : Int) : Int × Fin 12 :=
  normYM (makeFullYear y) m

/-- prevMonth from the source: setView(new Date(v.getFullYear(), v.getMonth() - 1, 1)). -/
def prevMonth (v : Int × Fin 12) : Int × Fin 12 :=
  mkYM v.1 ((v.2 : Int) - 1)

/-- nextMonth from the source: setView(new Date(v.getFullYear(), v.getMonth() + 1, 1)). -/
def nextMonth (v : Int × Fin 12) : Int × Fin 12 :=
  mkYM v.1 ((v.2 : Int) + 1)

/-- goToday from the source: view becomes the first of the current month, selection
becomes the current date t, whatever the prior state was. The current date t is
produced by new Date() from the wall clock, whose full year lies outside the
two-digit remap window of the constructor, so only the month normalisation
applies to it. -/
def goToday (t : Int × Fin 12 × Nat) (_s : HomeState) : HomeState :=
  { view := normYM t.1 (t.2.1 : Int), selected := t }

/-- The cell click handler from the source: onClick sets the selection to the cell
date when it is present and does nothing otherwise. -/
def clickCell (s : HomeState) (c : Cell) : HomeState :=
  match c.date with
  | some d => { s with selected := d }
  | none => s

/-- formatYMD from the source: year, dash, zero-padded month + 1, dash, zero-padded day. -/
def formatYMD (y : Int) (m : Fin 12) (d : Nat) : String :=
  toString y ++ "-" ++ pad2 (m.val + 1) ++ "-" ++ pad2 d

/-- The role attribute of a rendered cell in the source markup: button when in month. -/
def cellRole (c : Cell) : Option String :=
  if c.inMonth then some "button" else none

/-- The aria-label of a rendered cell in the source markup: the formatted date when present. -/
def cellAriaLabel (c : Cell) : Option String :=
  c.date.map (fun d => formatYMD d.1 d.2.1 d.2.2)

/-- Model of String.prototype.trim: strip leading and trailing whitespace. -/
def jsTrim (s : String) : String :=
  String.mk (((s.toList.dropWhile Char.isWhitespace).reverse.dropWhile Char.isWhitespace).reverse)

/-- getParam from the source: null params or a missing value give null, a value that
is empty or blank after trimming gives null, otherwise the trimmed value. -/
def getParam (v : Option String) : Option String :=
  match v with
  | none => none
  | some s =>
    if s = "" then none
    else if (jsTrim s).length ≠ 0 then some (jsTrim s) else none

/-- Model of the JavaScript Number conversion on an already trimmed string, over the
fragment of signed decimal literals: an optional sign, integer digits and optional
fractional digits after a dot. none stands for NaN; every string outside the
fragment is mapped to NaN. -/
def jsStringToNumber (s : String) : Option Rat :=
  let cs := s.toList
  if cs = [] then some 0
  else
    let signAndRest : Rat × List Char :=
      match cs with
      | '-' :: r => (-1, r)
      | '+' :: r => (1, r)
      | r => (1, r)
    let sign := signAndRest.1
    let intPart := signAndRest.2.takeWhile Char.isDigit
    let rest := signAndRest.2.dropWhile Char.isDigit
    let intVal : Nat := intPart.foldl (fun a c => a * 10 + (c.toNat - 48)) 0
    match rest with
    | [] => if intPart = [] then none else some (sign * intVal)
    | '.' :: frac =>
      if frac.all Char.isDigit && (intPart ≠ [] || frac ≠ []) then
        let fracVal : Nat := frac.foldl (fun a c => a * 10 + (c.toNat - 48)) 0
        some (sign * ((intVal : Rat) + (fracVal : Rat) / ((10 : Rat) ^ frac.length)))
      else none
    | _ => none

/-- Math.min on JavaScript numbers, where none stands for NaN: NaN propagates. -/
def jsMin (a b : Option Rat) : Option Rat :=
  match a, b with
  | some x, some y => some (min x y)
  | _, _ => none

/-- Math.max on JavaScript numbers, where none stands for NaN: NaN propagates. -/
def jsMax (a b : Option Rat) : Option Rat :=
  match a, b with
  | some x, some y => some (max x y)
  | _, _ => none

/-- The width computation from the source:
Math.max(220, Math.min(420, Number(getParam(params, w) || 280))). -/
def widthOf (wRaw : Option String) : Option Rat :=
  let n : Option Rat :=
    match getParam wRaw with
    | none => some 280
    | some s => jsStringToNumber s
  jsMax (some 220) (jsMin (some 420) n)

/-- The monthLabel memo from the source, with the Intl.DateTimeFormat call of the
host abstracted as its outcome: the formatted string on success, the numeric
fallback year dash padded month when the call raises. -/
def monthLabel (intl : Except Unit String) (y : Int) (m : Fin 12) : String :=
  match intl with
  | .ok s => s
  | .error _ => toString y ++ "-" ++ pad2 (m.val + 1)

/-- Modelled from the spec words: a numeric component zero-padded to two digits. -/
def twoDigit (n : Nat) : String :=
  if n < 10 then "0" ++ toString n else toString n

/-- pad2 agrees with the two-digit zero-padded form on all two-digit inputs. -/
theorem pad2_eq_twoDigit :
    ∀ n : Fin 100, pad2 n.val = twoDigit n.val ∧ (twoDigit n.val).length = 2 := by decide

/-- getDay always lands in 0..6. -/
theorem getDay_lt (y : Int) (m : Fin 12) (d : Nat) : getDay y m d < 7 := by
  simp only [getDay]
  omega

/-- Every month has at least 28 days. -/
theorem daysInMonth_ge (y : Int) (m : Fin 12) : 28 ≤ daysInMonth y m := by
  unfold daysInMonth; split <;> [skip; split <;> omega]
  split <;> omega

/-- Every month has at most 31 days. -/
theorem daysInMonth_le (y : Int) (m : Fin 12) : daysInMonth y m ≤ 31 := by
  unfold daysInMonth; split <;> [skip; split <;> omega]
  split <;> omega

/-- The week-start-adjusted leading offset is below 7 in both conventions. -/
theorem leading_lt (y : Int) (m : Fin 12) (ws : WeekStart) :
    (if ws = 1 then (getDay y m 1 + 6) % 7 else getDay y m 1) < 7 := by
  have := getDay_lt y m 1
  split
  · exact Nat.mod_lt _ (by omega)
  · exact this

/-- takeWhile over leading blanks stops exactly at the first non-blank cell. -/
theorem takeWhile_replicate_cons (p : Cell → Bool) (n : Nat) (b : Cell) (l : List Cell)
    (hp : p blankCell = true) (hb : p b = false) :
    ((List.replicate n blankCell ++ b :: l).takeWhile p).length = n := by
  induction n with
  | zero => simp [List.takeWhile_cons, hb]
  | succ k ih => simpa [List.replicate_succ, List.takeWhile_cons, hp] using ih

/-- Every cell of the generated grid is either the blank placeholder or the cell of
some day of the month. -/
theorem mem_cells_cases (y : Int) (m : Fin 12) (ws : WeekStart) (c : Cell)
    (hc : c ∈ cells y m ws) :
    c = blankCell ∨
      ∃ i, i < daysInMonth y m ∧ c = ⟨some (y, m, i + 1), toString (i + 1), true⟩ := by
  simp only [cells, List.mem_append, List.mem_replicate, List.mem_map, List.mem_range] at hc
  rcases hc with (⟨-, h⟩ | ⟨i, hi, rfl⟩) | ⟨-, h⟩
  · exact Or.inl h
  · exact Or.inr ⟨i, hi, rfl⟩
  · exact Or.inl h

/-- normYM is the identity on an already normalised month. -/
theorem normYM_fin (y : Int) (m : Fin 12) : normYM y (m : Int) = (y, m) := by
  have hm := m.isLt
  simp only [normYM, Prod.mk.injEq, Fin.ext_iff]
  constructor <;> omega

/-- Claim C1, counterexample: on the non-numeric query value w = abc the computed
width is NaN (modelled as none), not a number in [220, 420] and not the default
280, so the claim as stated fails. -/
theorem width_nonnumeric_nan :
    widthOf (some "abc") = none ∧ (none : Option Rat) ≠ some 280 := by decide

/-- Claim C1, amended: whenever the computed width is a number it lies in the range
[220, 420]; a missing, empty or blank w falls back to the default 280; a
non-numeric w yields NaN instead of a number. -/
theorem width_clamped_amended :
    (∀ w : Option String, ∀ q : Rat, widthOf w = some q → 220 ≤ q ∧ q ≤ 420) ∧
    widthOf none = some 280 ∧ widthOf (some "") = some 280 ∧
    widthOf (some "   ") = some 280 ∧ widthOf (some "abc") = none := by
  refine ⟨?_, by decide, by decide, by decide, by decide⟩
  intro w q hq
  simp only [widthOf] at hq
  rcases hmatch : (match getParam w with
    | none => some (280 : Rat)
    | some s => jsStringToNumber s) with _ | x
  · rw [hmatch] at hq; simp [jsMin, jsMax] at hq
  · rw [hmatch] at hq
    simp only [jsMin, jsMax, Option.some.injEq] at hq
    subst hq
    exact ⟨le_max_left _ _, max_le (by norm_num) (min_le_left _ _)⟩

/-- Claim C1, witness: the width computed for a missing w is the number 280, inside
the clamping range. -/
theorem width_clamped_witness : 220 ≤ (280 : Rat) ∧ (280 : Rat) ≤ 420 :=
  width_clamped_amended.1 none 280 (by decide)

/-- Claim C2: for every (year, month) pair and each week-start convention the number
of leading blank cells of the generated grid equals the weekday of day 1 under
Sunday start and that weekday plus 6 modulo 7 under Monday start. -/
theorem leading_blank_count (y : Int) (m : Fin 12) (ws : WeekStart) :
    ((cells y m ws).takeWhile (fun c => !c.inMonth)).length
      = if ws = 1 then (getDay y m 1 + 6) % 7 else getDay y m 1 := by
  have hD : 28 ≤ daysInMonth y m := daysInMonth_ge y m
  obtain ⟨k, hk⟩ : ∃ k, daysInMonth y m = k + 1 := ⟨daysInMonth y m - 1, by omega⟩
  simp only [cells, hk, List.range_succ_eq_map, List.map_cons, List.cons_append,
    List.append_assoc]
  exact takeWhile_replicate_cons _ _ _ _ rfl rfl

/-- Claim C3: for every (year, month) pair and each week-start convention the grid
generator produces exactly 42 cells. -/
theorem cells_length_42 (y : Int) (m : Fin 12) (ws : WeekStart) :
    (cells y m ws).length = 42 := by
  have h1 := leading_lt y m ws
  have h2 := daysInMonth_le y m
  simp only [cells, List.length_append, List.length_replicate, List.length_map,
    List.length_range]
  omega

/-- Claim C4: the number of in-month cells equals the number of days of the month, a
value between 28 and 31, and every other cell is a blank placeholder carrying no
date and no label. -/
theorem inMonth_count_eq_daysInMonth (y : Int) (m : Fin 12) (ws : WeekStart) :
    (cells y m ws).countP (fun c => c.inMonth) = daysInMonth y m ∧
    28 ≤ daysInMonth y m ∧ daysInMonth y m ≤ 31 ∧
    (∀ c ∈ cells y m ws, c.inMonth = false → c.date = none ∧ c.label = "") := by
  refine ⟨?_, daysInMonth_ge y m, daysInMonth_le y m, ?_⟩
  · simp only [cells, List.countP_append, List.countP_replicate, blankCell, List.countP_map]
    rw [List.countP_eq_length.mpr (by intro a ha; rfl)]
    simp
  · intro c hc hin
    rcases mem_cells_cases y m ws c hc with rfl | ⟨i, -, rfl⟩
    · exact ⟨rfl, rfl⟩
    · simp at hin

/-- Claim C4, witness: in the February 2024 grid the in-month count is the 29 days
of that month, and a concrete blank cell of that grid carries no date. -/
theorem inMonth_count_witness :
    (cells 2024 1 0).countP (fun c => c.inMonth) = daysInMonth 2024 1 ∧
    blankCell.date = none ∧ blankCell.label = "" :=
  ⟨(inMonth_count_eq_daysInMonth 2024 1 0).1,
   (inMonth_count_eq_daysInMonth 2024 1 0).2.2.2 blankCell (by decide) rfl⟩

/-- Claim C5: formatting a selected date yields the year, a dash, the zero-padded
two-digit month and a dash and the zero-padded two-digit day, for every day value
a cell can carry. -/
theorem formatYMD_zero_padded (y : Int) (m : Fin 12) (d : Nat)
    (h1 : 1 ≤ d) (h2 : d ≤ 31) :
    formatYMD y m d = toString y ++ "-" ++ twoDigit (m.val + 1) ++ "-" ++ twoDigit d ∧
    (twoDigit (m.val + 1)).length = 2 ∧ (twoDigit d).length = 2 := by
  have hm := pad2_eq_twoDigit ⟨m.val + 1, by omega⟩
  have hd := pad2_eq_twoDigit ⟨d, by omega⟩
  exact ⟨by rw [formatYMD, hm.1, hd.1], hm.2, hd.2⟩

/-- Claim C5, witness: the fifth of March 2024 formats as 2024-03-05, with month 3
rendered as 03. -/
theorem formatYMD_witness : formatYMD 2024 2 5 = "2024-03-05" := by
  have h := formatYMD_zero_padded 2024 2 5 (by norm_num) (by norm_num)
  rw [h.1]; decide

/-- Claim C6, counterexample: from the view January of year 100, previous month
runs new Date(100, -1, 1) giving December of year 99, and next month from there
runs new Date(99, 12, 1), whose year argument 99 the constructor remaps to 1999,
landing on January 2000 instead of the original view. -/
theorem month_nav_remap_counterexample :
    nextMonth (prevMonth ((100 : Int), (0 : Fin 12))) = ((2000 : Int), (0 : Fin 12)) ∧
    (((2000 : Int), (0 : Fin 12)) : Int × Fin 12) ≠ ((100 : Int), (0 : Fin 12)) := by decide

/-- Claim C6, amended: next month followed by previous month, and previous followed
by next, return the view to the original (year, month) pair for every view whose
year lies outside the two-digit remap window 0 to 99 of the Date constructor,
excluding also the two boundary views December of year -1 and January of year
100, whose one-month neighbour falls inside the window. -/
theorem month_nav_round_trip_amended (v : Int × Fin 12)
    (hy : v.1 < 0 ∨ 100 ≤ v.1)
    (ha : ¬(v.1 = -1 ∧ v.2.val = 11)) (hb : ¬(v.1 = 100 ∧ v.2.val = 0)) :
    prevMonth (nextMonth v) = v ∧ nextMonth (prevMonth v) = v := by
  obtain ⟨y, m⟩ := v
  have hm := m.isLt
  dsimp only at hy ha hb
  simp only [prevMonth, nextMonth, mkYM, normYM, makeFullYear, Prod.mk.injEq,
    Fin.ext_iff]
  constructor <;> refine ⟨?_, ?_⟩ <;> (try split_ifs) <;> omega

/-- Claim C6, witness: from the view June 2024 both compositions return to June
2024. -/
theorem month_nav_round_trip_witness :
    prevMonth (nextMonth ((2024 : Int), (5 : Fin 12))) = ((2024 : Int), (5 : Fin 12)) ∧
    nextMonth (prevMonth ((2024 : Int), (5 : Fin 12))) = ((2024 : Int), (5 : Fin 12)) :=
  month_nav_round_trip_amended ((2024 : Int), (5 : Fin 12)) (by decide) (by decide)
    (by decide)

/-- Claim C7: for every current date and every prior state, the today action sets
the view month to the current (year, month) and the selection to the current date. -/
theorem goToday_resets (t : Int × Fin 12 × Nat) (s : HomeState) :
    goToday t s = { view := (t.1, t.2.1), selected := t } := by
  simp [goToday, normYM_fin]

/-- Claim C8: clicking an in-month cell of the grid sets the selection to the date
of that cell, a day of the viewed month, and leaves the view unchanged. -/
theorem click_inMonth_sets_selected (y : Int) (m : Fin 12) (ws : WeekStart)
    (s : HomeState) (c : Cell) (hc : c ∈ cells y m ws) (hin : c.inMonth = true) :
    ∃ d : Nat, 1 ≤ d ∧ d ≤ daysInMonth y m ∧ c.date = some (y, m, d) ∧
      clickCell s c = { view := s.view, selected := (y, m, d) } := by
  rcases mem_cells_cases y m ws c hc with rfl | ⟨i, hi, rfl⟩
  · simp [blankCell] at hin
  · exact ⟨i + 1, by omega, by omega, rfl, rfl⟩

/-- Claim C8, witness: clicking the January 1 cell of the January 2024 grid from a
concrete state selects a day of that month and keeps the view. -/
theorem click_inMonth_witness :
    ∃ d : Nat, 1 ≤ d ∧ d ≤ daysInMonth 2024 0 ∧
      (⟨some (2024, 0, 1), "1", true⟩ : Cell).date = some (2024, 0, d) ∧
      clickCell ⟨(2024, 0), (2024, 0, 15)⟩ ⟨some (2024, 0, 1), "1", true⟩
        = { view := ((2024 : Int), (0 : Fin 12)), selected := (2024, 0, d) } :=
  click_inMonth_sets_selected 2024 0 0 ⟨(2024, 0), (2024, 0, 15)⟩
    ⟨some (2024, 0, 1), "1", true⟩ (by decide) rfl

/-- Claim C10: clicking a blank cell of the grid changes nothing, and a blank cell
carries no button role, no aria date label and no text label. -/
theorem click_blank_noop (y : Int) (m : Fin 12) (ws : WeekStart)
    (s : HomeState) (c : Cell) (hc : c ∈ cells y m ws) (hb : c.inMonth = false) :
    clickCell s c = s ∧ cellRole c = none ∧ cellAriaLabel c = none ∧ c.label = "" := by
  rcases mem_cells_cases y m ws c hc with rfl | ⟨i, hi, rfl⟩
  · exact ⟨rfl, rfl, rfl, rfl⟩
  · simp at hb

/-- Claim C10, witness: clicking the blank placeholder of the February 2024 grid
from a concrete state is a no-op and the blank has no role and no labels. -/
theorem click_blank_witness :
    clickCell ⟨(2024, 1), (2024, 1, 15)⟩ blankCell = ⟨(2024, 1), (2024, 1, 15)⟩ ∧
    cellRole blankCell = none ∧ cellAriaLabel blankCell = none ∧ blankCell.label = "" :=
  click_blank_noop 2024 1 0 ⟨(2024, 1), (2024, 1, 15)⟩ blankCell (by decide) rfl

/-- Claim C9: whenever the Intl month formatting raises, the month label falls back
to the numeric year, a dash and the zero-padded two-digit month of the view. -/
theorem monthLabel_fallback (y : Int) (m : Fin 12) :
    monthLabel (Except.error ()) y m = toString y ++ "-" ++ twoDigit (m.val + 1) ∧
    (twoDigit (m.val + 1)).length = 2 := by
  have hm := pad2_eq_twoDigit ⟨m.val + 1, by omega⟩
  exact ⟨by rw [monthLabel, hm.1], hm.2⟩

end Calendar
